import Mathlib

/-!
Verification development for the generalized Langton-style ant simulator
(`sketch.js`): configuration validation and serialization, the automaton
movement rule on a toroidal grid, the multi-automaton engine
(`AntSim.step` / `addAnt` / `resize`), and the rate controller.

Modelling conventions, stated once:
* JS numbers reaching the validator are modelled as rationals `ℚ`
  (the validator performs only comparisons and one product, which are
  exact for the values involved; `NaN`/`Infinity` are outside the model,
  except that a missing `states` field is tracked as `Option.none`, whose
  `NaN` arithmetic makes the transition-count comparison always false,
  which the model reproduces directly).
* A field read that yields JS `undefined` (missing field, or a field of
  the wrong runtime type where only that matters) is `Option.none`.
* A thrown JS exception inside an engine operation is `Option.none` in
  the result type; a `ConfigError` thrown by the validator is
  `Except.error`.
* Engine grids store natural-number color indices and automaton
  coordinates are integers `ℤ` (JS numbers are signed; `addAnt` performs
  no bounds check).  An in-place JS array write at an out-of-range index
  extends the array; it is modelled as a no-op because no in-range read
  ever observes such a cell.
-/

/-! ### Configuration validator (`validateAntConfig`, sketch.js lines 24-37) -/

/-- Distinct failure kinds of `validateAntConfig`, one per `throw` site.
`transitionCountMismatch` carries the expected count reported in the
message (`none` when `states` is missing, i.e. the JS message reports `NaN`). -/
inductive ConfigError where
  | notAnObject
  | missingName
  | invalidColorCount
  | missingTransitions
  | transitionCountMismatch (expected : Option ℚ)
  | transitionNotAnObject (i : ℕ)
  | newColorOutOfRange (i : ℕ)
  | invalidTurn (i : ℕ)
  | nextStateOutOfRange (i : ℕ)
deriving DecidableEq, Repr

/-- A candidate transition record as the validator sees it: `isObj` is
`typeof t === 'object'`; each field is `some q` when present with a numeric
value `q` and `none` when absent or non-numeric. -/
structure TCand where
  isObj : Bool
  newColor : Option ℚ
  turn : Option ℚ
  nextState : Option ℚ
deriving DecidableEq, Repr

/-- A candidate configuration as the validator sees it.  `isObj` is
`obj && typeof obj === 'object'`; `name` is `some s` when the field holds
the string `s` (a falsy or non-string name validates the same as an absent
one); numeric fields are as in `TCand`. -/
structure Cand where
  isObj : Bool
  name : Option String
  states : Option ℚ
  colors : Option ℚ
  transitions : Option (List TCand)
deriving DecidableEq, Repr

/-- Per-entry checks of `validateAntConfig` (lines 31-36), in source order:
entry is an object; `newColor` numeric and in `[0, colors)`; `turn` exactly
`0` or `1`; `nextState` numeric, nonnegative and, when `states` is present,
below it (the JS comparison `t.nextState >= undefined` is false, so a
missing `states` never fires this check). -/
def checkTransition (colors : ℚ) (states : Option ℚ) (i : ℕ) (t : TCand) :
    Except ConfigError Unit :=
  if t.isObj = false then Except.error (ConfigError.transitionNotAnObject i)
  else match t.newColor with
  | none => Except.error (ConfigError.newColorOutOfRange i)
  | some nc =>
    if nc < 0 ∨ colors ≤ nc then Except.error (ConfigError.newColorOutOfRange i)
    else match t.turn with
    | none => Except.error (ConfigError.invalidTurn i)
    | some tn =>
      if tn ≠ 0 ∧ tn ≠ 1 then Except.error (ConfigError.invalidTurn i)
      else match t.nextState with
      | none => Except.error (ConfigError.nextStateOutOfRange i)
      | some ns =>
        if ns < 0 then Except.error (ConfigError.nextStateOutOfRange i)
        else match states with
        | some st =>
          if st ≤ ns then Except.error (ConfigError.nextStateOutOfRange i)
          else Except.ok ()
        | none => Except.ok ()

/-- The `forEach` over `obj.transitions`, threading the entry index. -/
def checkTransitions (colors : ℚ) (states : Option ℚ) :
    ℕ → List TCand → Except ConfigError Unit
  | _, [] => Except.ok ()
  | i, t :: rest =>
    match checkTransition colors states i t with
    | Except.error e => Except.error e
    | Except.ok _ => checkTransitions colors states (i + 1) rest

/-- `validateAntConfig` (lines 24-37): the five structural checks in source
order, then the per-entry checks.  The expected transition count is
`states * (colors + 1)`; with `states` missing the JS product is `NaN`,
which compares unequal to any array length, modelled by the `none` branch. -/
def validateAntConfig (c : Cand) : Except ConfigError Unit :=
  if c.isObj = false then Except.error ConfigError.notAnObject
  else match c.name with
  | none => Except.error ConfigError.missingName
  | some nm =>
    if nm = "" then Except.error ConfigError.missingName
    else match c.colors with
    | none => Except.error ConfigError.invalidColorCount
    | some q =>
      if q < 1 then Except.error ConfigError.invalidColorCount
      else match c.transitions with
      | none => Except.error ConfigError.missingTransitions
      | some ts =>
        match c.states with
        | none => Except.error (ConfigError.transitionCountMismatch none)
        | some st =>
          if (ts.length : ℚ) ≠ st * (q + 1) then
            Except.error (ConfigError.transitionCountMismatch (some (st * (q + 1))))
          else checkTransitions q (some st) 0 ts

/-! ### Serialization (`serializeAntConfig` / `parseAntConfig`, lines 7-19)

The JSON text codec (`JSON.stringify` / `JSON.parse`) is the platform's,
not this repository's; it is modelled at the JSON-value level by the
inductive `JVal`, with the repository's contribution — validate before
emitting, decode then validate — embedded directly. -/

/-- JSON values, as far as the configuration interchange format needs. -/
inductive JVal where
  | num (q : ℚ)
  | str (s : String)
  | arr (elems : List JVal)
  | obj (fields : List (String × JVal))

/-- JSON encoding of a candidate transition: the fields the model tracks,
in source field order, present fields only. -/
def encodeTCand (t : TCand) : JVal :=
  JVal.obj
    ((match t.newColor with | some q => [("newColor", JVal.num q)] | none => []) ++
     (match t.turn with | some q => [("turn", JVal.num q)] | none => []) ++
     (match t.nextState with | some q => [("nextState", JVal.num q)] | none => []))

/-- Reading a parsed JSON value back as a candidate transition: property
reads on a non-object yield `undefined`; a JSON array has
`typeof === 'object'` but none of the named fields. -/
def decodeTCand (j : JVal) : TCand :=
  match j with
  | JVal.obj fs =>
    { isObj := true
      newColor := match List.lookup "newColor" fs with
        | some (JVal.num q) => some q | _ => none
      turn := match List.lookup "turn" fs with
        | some (JVal.num q) => some q | _ => none
      nextState := match List.lookup "nextState" fs with
        | some (JVal.num q) => some q | _ => none }
  | JVal.arr _ => { isObj := true, newColor := none, turn := none, nextState := none }
  | _ => { isObj := false, newColor := none, turn := none, nextState := none }

/-- JSON encoding of a candidate configuration (present fields only). -/
def encodeCand (c : Cand) : JVal :=
  JVal.obj
    ((match c.name with | some s => [("name", JVal.str s)] | none => []) ++
     (match c.states with | some q => [("states", JVal.num q)] | none => []) ++
     (match c.colors with | some q => [("colors", JVal.num q)] | none => []) ++
     (match c.transitions with
      | some ts => [("transitions", JVal.arr (ts.map encodeTCand))] | none => []))

/-- Reading a parsed JSON value back as a candidate configuration. -/
def decodeCand (j : JVal) : Cand :=
  match j with
  | JVal.obj fs =>
    { isObj := true
      name := match List.lookup "name" fs with
        | some (JVal.str s) => some s | _ => none
      states := match List.lookup "states" fs with
        | some (JVal.num q) => some q | _ => none
      colors := match List.lookup "colors" fs with
        | some (JVal.num q) => some q | _ => none
      transitions := match List.lookup "transitions" fs with
        | some (JVal.arr l) => some (l.map decodeTCand) | _ => none }
  | JVal.arr _ =>
    { isObj := true, name := none, states := none, colors := none, transitions := none }
  | _ =>
    { isObj := false, name := none, states := none, colors := none, transitions := none }

/-- `serializeAntConfig` (lines 16-19): re-validate, then emit. -/
def serializeAntConfig (c : Cand) : Except ConfigError JVal :=
  match validateAntConfig c with
  | Except.error e => Except.error e
  | Except.ok _ => Except.ok (encodeCand c)

/-- `parseAntConfig` (lines 7-11), from the parsed JSON value on: read the
fields, validate, return the configuration. -/
def parseAntConfig (j : JVal) : Except ConfigError Cand :=
  match validateAntConfig (decodeCand j) with
  | Except.error e => Except.error e
  | Except.ok _ => Except.ok (decodeCand j)

/-! ### Engine data model (`Ant`, `AntSim`, sketch.js lines 46-123)

The engine layer models the integer-valued executions the engine claims
are about: color indices and state numbers are naturals, coordinates are
integers. -/

/-- One transition record of a bound configuration. -/
structure Transition where
  newColor : ℕ
  turn : ℕ
  nextState : ℕ
deriving DecidableEq, Repr

/-- A bound configuration, as `Ant.move` consumes it. -/
structure Config where
  name : String
  states : ℕ
  colors : ℕ
  transitions : List Transition
deriving DecidableEq, Repr

/-- The integer restriction of `validateAntConfig` acceptance, proved
equivalent to it via `Config.toCand` below. -/
def Config.Valid (c : Config) : Prop :=
  c.name ≠ "" ∧ 1 ≤ c.colors ∧
  c.transitions.length = c.states * (c.colors + 1) ∧
  ∀ t ∈ c.transitions,
    t.newColor < c.colors ∧ (t.turn = 0 ∨ t.turn = 1) ∧ t.nextState < c.states

/-- View of an integer transition as a validator candidate. -/
def Transition.toCand (t : Transition) : TCand :=
  { isObj := true
    newColor := some t.newColor
    turn := some t.turn
    nextState := some t.nextState }

/-- View of an integer configuration as a validator candidate. -/
def Config.toCand (c : Config) : Cand :=
  { isObj := true
    name := some c.name
    states := some c.states
    colors := some c.colors
    transitions := some (c.transitions.map Transition.toCand) }

/-- The grid: rows of color indices (`this.grid`). -/
abbrev Grid := List (List ℕ)

/-- `grid[y]` — `none` is JS `undefined`, whose member access throws. -/
def gridRow? (g : Grid) (y : ℤ) : Option (List ℕ) :=
  if y < 0 then none else g[y.toNat]?

/-- `row[x]` — `none` is JS `undefined` (an out-of-range read does not throw). -/
def cellRead? (row : List ℕ) (x : ℤ) : Option ℕ :=
  if x < 0 then none else row[x.toNat]?

/-- `row[x] = v`.  An out-of-range JS write extends the array with cells no
in-range read observes; it is modelled as a no-op. -/
def rowSet (row : List ℕ) (x : ℤ) (v : ℕ) : List ℕ :=
  if x < 0 then row else row.set x.toNat v

/-- `grid[y][x] = v` (only reached when `grid[y]` exists). -/
def gridSet (g : Grid) (y x : ℤ) (v : ℕ) : Grid :=
  if y < 0 then g else g.set y.toNat (rowSet ((g[y.toNat]?).getD []) x v)

/-- An automaton (`Ant` constructor, lines 94-100): position, facing
(0=up, 1=right, 2=down, 3=left), internal state, bound configuration. -/
structure Ant where
  x : ℤ
  y : ℤ
  direction : ℕ
  state : ℕ
  config : Config
deriving DecidableEq, Repr

/-- The advance sub-step of `Ant.move` (the `switch` on lines 116-121):
one cell in the current facing direction with toroidal wrap.  JS `%` is
the sign-of-dividend remainder, i.e. `Int.tmod`. -/
def advanceAnt (rows cols : ℕ) (a : Ant) : Ant :=
  if a.direction = 0 then { a with y := Int.tmod (a.y - 1 + rows) rows }
  else if a.direction = 1 then { a with x := Int.tmod (a.x + 1) cols }
  else if a.direction = 2 then { a with y := Int.tmod (a.y + 1) rows }
  else if a.direction = 3 then { a with x := Int.tmod (a.x - 1 + cols) cols }
  else a

/-- `Ant.move` (lines 102-122).  `none` models the JS `TypeError` thrown by
`grid[this.y][this.x]` when row `y` does not exist.  A missing cell read
(`undefined`) makes the primary index `NaN`, so the primary lookup misses
and the fallback index `state * colorCount + colorCount` is consulted; if
that also misses the automaton does nothing this step. -/
def Ant.move (a : Ant) (g : Grid) (rows cols : ℕ) : Option (Grid × Ant) :=
  match gridRow? g a.y with
  | none => none
  | some row =>
    let colorCount := a.config.colors
    let t? : Option Transition :=
      match cellRead? row a.x with
      | some c =>
        match a.config.transitions[a.state * colorCount + c]? with
        | some t => some t
        | none => a.config.transitions[a.state * colorCount + colorCount]?
      | none => a.config.transitions[a.state * colorCount + colorCount]?
    match t? with
    | none => some (g, a)
    | some t =>
      let g' := gridSet g a.y a.x t.newColor
      let a' := advanceAnt rows cols
        { a with
          direction := (a.direction + (if t.turn = 0 then 3 else 1)) % 4,
          state := t.nextState }
      some (g', a')

/-- The body of `AntSim.step` (lines 69-73): each automaton moves once, in
list order, against the grid as left by the automatons before it. -/
def stepAnts (rows cols : ℕ) (g : Grid) : List Ant → Option (Grid × List Ant)
  | [] => some (g, [])
  | a :: rest =>
    match a.move g rows cols with
    | none => none
    | some (g', a') =>
      match stepAnts rows cols g' rest with
      | none => none
      | some (g'', rest') => some (g'', a' :: rest')

/-- The engine state (`AntSim` fields). -/
structure AntSim where
  gridSize : ℕ
  width : ℕ
  height : ℕ
  config : Config
  rows : ℕ
  cols : ℕ
  grid : Grid
  ants : List Ant
deriving DecidableEq, Repr

/-- A `rows × cols` grid of background color 0
(`Array.from({length: rows}, () => Array(cols).fill(0))`). -/
def mkGrid (rows cols : ℕ) : Grid := List.replicate rows (List.replicate cols 0)

/-- `AntSim.setConfig` (lines 56-62): hard reset of grid and automatons. -/
def AntSim.setConfig (s : AntSim) (cfg : Config) : AntSim :=
  let rows := s.height / s.gridSize
  let cols := s.width / s.gridSize
  { s with
    config := cfg
    rows := rows
    cols := cols
    grid := mkGrid rows cols
    ants := [] }

/-- The `AntSim` constructor (lines 47-54): store dimensions, run
`setConfig`, clear the automaton list. -/
def AntSim.init (cfg : Config) (width height gridSize : ℕ) : AntSim :=
  AntSim.setConfig
    { gridSize := gridSize, width := width, height := height, config := cfg,
      rows := 0, cols := 0, grid := [], ants := [] } cfg

/-- `AntSim.addAnt` (lines 64-67): push a new automaton bound to the given
configuration, or to the engine's current one when none is given
(`config || this.config`).  No bounds check. -/
def AntSim.addAnt (s : AntSim) (x y : ℤ) (cfg : Option Config) : AntSim :=
  { s with ants := s.ants ++
      [{ x := x, y := y, direction := 0, state := 0, config := cfg.getD s.config }] }

/-- `AntSim.step` (lines 69-73); `none` models a thrown `TypeError`. -/
def AntSim.step (s : AntSim) : Option AntSim :=
  match stepAnts s.rows s.cols s.grid s.ants with
  | none => none
  | some (g, as) => some { s with grid := g, ants := as }

/-- The grid rebuild inside `AntSim.resize` (lines 83-88): fresh background
grid, then copy of the overlapping top-left region from the old grid. -/
def resizeGrid (old : Grid) (oldRows oldCols newRows newCols : ℕ) : Grid :=
  (List.range newRows).map fun y =>
    (List.range newCols).map fun x =>
      if y < min oldRows newRows ∧ x < min oldCols newCols then
        ((old[y]?).getD [])[x]?.getD 0
      else 0

/-- `AntSim.resize` (lines 75-90).  Note the automaton filter keeps
`ant.x < cols && ant.y < rows` — upper bounds only, as in the source. -/
def AntSim.resize (s : AntSim) (width height : ℕ) : AntSim :=
  let rows := height / s.gridSize
  let cols := width / s.gridSize
  { s with
    width := width
    height := height
    rows := rows
    cols := cols
    grid := resizeGrid s.grid s.rows s.cols rows cols
    ants := s.ants.filter fun a =>
      decide (a.x < (cols : ℤ)) && decide (a.y < (rows : ℤ)) }

/-- Well-formedness of a grid with respect to dimension fields; every state
the public interface reaches satisfies it. -/
def gridWFd (rows cols : ℕ) (g : Grid) : Prop :=
  g.length = rows ∧ ∀ row ∈ g, row.length = cols

/-- Well-formedness of an engine state's grid. -/
def gridWF (s : AntSim) : Prop := gridWFd s.rows s.cols s.grid

/-- Cell accessor used to state grid properties (0 when out of range). -/
def cellAt (g : Grid) (y x : ℕ) : ℕ := ((g[y]?).getD [])[x]?.getD 0

/-! ### Rate controller (lines 168-193 and the UI handlers at 238-246,
289-295), in exact rational arithmetic. -/

/-- The rate controller state: target rate, fractional step accumulator,
pause gate. -/
structure RateCtl where
  stepsPerSecond : ℚ
  stepAccumulator : ℚ
  paused : Bool
deriving DecidableEq, Repr

/-- The fixed batch tick length in milliseconds (line 182). -/
def batchInterval : ℚ := 50

/-- One tick of the `setInterval` body in `updateSimulationInterval`
(lines 183-191): while not paused, add `rate * tickSeconds` to the
accumulator, drain the integer part as that many `step()` calls (the
returned count), keep the fractional remainder. -/
def tickBatch (r : RateCtl) : RateCtl × ℕ :=
  if r.paused then (r, 0)
  else
    let acc := r.stepAccumulator + r.stepsPerSecond * batchInterval / 1000
    let n : ℤ := ⌊acc⌋
    ({ r with stepAccumulator := acc - n }, n.toNat)

/-- The speed-slider input handler (lines 289-295): store the new rate and
reset the accumulator to zero.  The logarithmic slider-to-rate curve is a
separate concern; the handler receives its result as `newRate`. -/
def setRate (r : RateCtl) (newRate : ℚ) : RateCtl :=
  { r with stepsPerSecond := newRate, stepAccumulator := 0 }

/-- The pause-button handler (lines 238-246): toggle the gate; on a
paused-to-running transition reset the accumulator to zero. -/
def togglePause (r : RateCtl) : RateCtl :=
  { r with
    paused := !r.paused
    stepAccumulator := if r.paused then 0 else r.stepAccumulator }

/-! ### Concrete data used by witnesses and counterexamples -/

/-- The classic preset (`presetAnts.classic` in js/presetAnts.js). -/
def classicConfig : Config :=
  { name := "classic"
    states := 1
    colors := 2
    transitions := [⟨1, 1, 0⟩, ⟨0, 0, 0⟩, ⟨0, 1, 0⟩] }

/-- A candidate whose `newColor` is the non-integer `1/2`, otherwise in
range (`states = 1`, `colors = 1`, two entries). -/
def fracNewColorCand : Cand :=
  { isObj := true
    name := some "halfc"
    states := some 1
    colors := some 1
    transitions := some
      [⟨true, some (1/2), some 1, some 0⟩, ⟨true, some 0, some 1, some 0⟩] }

/-- A candidate whose `colors` is the non-integer `3/2` (`states = 2`, so
the expected transition count `2 * (3/2 + 1) = 5` is met exactly). -/
def fracColorsCand : Cand :=
  { isObj := true
    name := some "frac"
    states := some 2
    colors := some (3/2)
    transitions := some (List.replicate 5 ⟨true, some 0, some 1, some 0⟩) }

/-- The per-entry acceptance condition of the validator, as the amended C3
states it: the entry is an object, `newColor` is a number in
`[0, colorCount)`, `turn` is exactly `0` (left) or `1` (right), and
`nextState` is a number in `[0, stateCount)`. -/
def TEntryOk (q st : ℚ) (t : TCand) : Prop :=
  t.isObj = true ∧
  (∃ nc, t.newColor = some nc ∧ 0 ≤ nc ∧ nc < q) ∧
  (t.turn = some 0 ∨ t.turn = some 1) ∧
  (∃ ns, t.nextState = some ns ∧ 0 ≤ ns ∧ ns < st)

/-- The `newColor` sub-check of a per-entry check (second in check order,
after the entry-is-an-object check): a number in `[0, colorCount)`. -/
def TNewColorOk (q : ℚ) (t : TCand) : Prop :=
  ∃ nc, t.newColor = some nc ∧ 0 ≤ nc ∧ nc < q

/-- The `turn` sub-check (third in check order): exactly `0` or `1`. -/
def TTurnOk (t : TCand) : Prop := t.turn = some 0 ∨ t.turn = some 1

/-- The `nextState` sub-check (fourth in check order): a number in
`[0, stateCount)`. -/
def TNextStateOk (st : ℚ) (t : TCand) : Prop :=
  ∃ ns, t.nextState = some ns ∧ 0 ≤ ns ∧ ns < st

/-- A candidate whose first entry passes every per-entry check and whose
second entry has `turn = 5`, so the first failing check is the turn check
of entry 1 (`states = 1`, `colors = 1`, count `2 = 1 * (1 + 1)` exact). -/
def badTurnCand : Cand :=
  { isObj := true
    name := some "badturn"
    states := some 1
    colors := some 1
    transitions := some
      [⟨true, some 0, some 1, some 0⟩, ⟨true, some 0, some 5, some 0⟩] }

/-! ## Theorems -/

/-! ### Validator lemmas -/

lemma ite_error_eq_ok_iff {P : Prop} [Decidable P] (e : ConfigError)
    (x : Except ConfigError Unit) :
    ((if P then Except.error e else x) = Except.ok ()) ↔ (¬ P ∧ x = Except.ok ()) := by
  split_ifs with h <;> simp [h]

lemma checkTransition_ok_iff (q st : ℚ) (i : ℕ) (t : TCand) :
    checkTransition q (some st) i t = Except.ok () ↔ TEntryOk q st t := by
  rcases t with ⟨b, nc, tn, ns⟩
  cases b <;> cases nc <;> cases tn <;> cases ns <;>
    simp [checkTransition, TEntryOk, ite_error_eq_ok_iff, not_or, not_and_or,
      not_lt, not_le]
  tauto

lemma checkTransitions_ok_iff (q st : ℚ) :
    ∀ (i : ℕ) (ts : List TCand),
      checkTransitions q (some st) i ts = Except.ok () ↔ ∀ t ∈ ts, TEntryOk q st t := by
  intro i ts
  induction ts generalizing i with
  | nil => simp [checkTransitions]
  | cons t rest ih =>
    simp only [checkTransitions]
    rcases h : checkTransition q (some st) i t with e | u
    · simp only [List.mem_cons]
      constructor
      · intro h'; exact absurd h' (by simp)
      · intro h'
        have := (checkTransition_ok_iff q st i t).mpr (h' t (Or.inl rfl))
        rw [h] at this; exact absurd this (by simp)
    · have ht := (checkTransition_ok_iff q st i t).mp (by rw [h])
      simp only [List.mem_cons]
      rw [ih (i + 1)]
      constructor
      · rintro h' t' (rfl | hm)
        · exact ht
        · exact h' t' hm
      · intro h' t' hm; exact h' t' (Or.inr hm)

lemma checkTransition_err_notObject (q : ℚ) (sto : Option ℚ) (i : ℕ) (t : TCand)
    (h : t.isObj = false) :
    checkTransition q sto i t = Except.error (ConfigError.transitionNotAnObject i) := by
  unfold checkTransition
  rw [if_pos h]

lemma checkTransition_err_newColor (q st : ℚ) (i : ℕ) (t : TCand)
    (hobj : t.isObj = true) (h : ¬ TNewColorOk q t) :
    checkTransition q (some st) i t = Except.error (ConfigError.newColorOutOfRange i) := by
  rcases t with ⟨b, nc, tn, ns⟩
  dsimp only at hobj
  subst hobj
  unfold checkTransition
  rw [if_neg (by simp)]
  rcases nc with _ | a
  · rfl
  · have ha : a < 0 ∨ q ≤ a := by
      by_contra hcon
      push_neg at hcon
      exact h ⟨a, rfl, hcon.1, hcon.2⟩
    dsimp only
    rw [if_pos ha]

lemma checkTransition_err_turn (q st : ℚ) (i : ℕ) (t : TCand)
    (hobj : t.isObj = true) (hnc : TNewColorOk q t) (h : ¬ TTurnOk t) :
    checkTransition q (some st) i t = Except.error (ConfigError.invalidTurn i) := by
  obtain ⟨a, ha, ha0, ha1⟩ := hnc
  rcases t with ⟨b, nc, tn, ns⟩
  dsimp only at hobj ha
  subst hobj
  subst ha
  unfold checkTransition
  rw [if_neg (by simp)]
  dsimp only
  rw [if_neg (not_or.mpr ⟨not_lt.mpr ha0, not_le.mpr ha1⟩)]
  rcases tn with _ | u
  · rfl
  · have hu : ¬ u = 0 ∧ ¬ u = 1 := by
      constructor
      · intro hcon
        exact h (Or.inl (by rw [hcon]))
      · intro hcon
        exact h (Or.inr (by rw [hcon]))
    dsimp only
    rw [if_pos hu]

lemma checkTransition_err_nextState (q st : ℚ) (i : ℕ) (t : TCand)
    (hobj : t.isObj = true) (hnc : TNewColorOk q t) (htn : TTurnOk t)
    (h : ¬ TNextStateOk st t) :
    checkTransition q (some st) i t =
      Except.error (ConfigError.nextStateOutOfRange i) := by
  obtain ⟨a, ha, ha0, ha1⟩ := hnc
  rcases t with ⟨b, nc, tn, ns⟩
  dsimp only at hobj ha
  subst hobj
  subst ha
  have hu : ∃ u, tn = some u ∧ ¬ (u ≠ 0 ∧ u ≠ 1) := by
    rcases htn with hu | hu
    · dsimp only at hu
      exact ⟨0, hu, by simp⟩
    · dsimp only at hu
      exact ⟨1, hu, by simp⟩
  obtain ⟨u, hu, huc⟩ := hu
  subst hu
  unfold checkTransition
  rw [if_neg (by simp)]
  dsimp only
  rw [if_neg (not_or.mpr ⟨not_lt.mpr ha0, not_le.mpr ha1⟩)]
  rw [if_neg huc]
  rcases ns with _ | v
  · rfl
  · have hv : v < 0 ∨ st ≤ v := by
      by_contra hcon
      push_neg at hcon
      exact h ⟨v, rfl, hcon.1, hcon.2⟩
    dsimp only
    by_cases hv0 : v < 0
    · rw [if_pos hv0]
    · rw [if_neg hv0]
      rw [if_pos (hv.resolve_left hv0)]

lemma checkTransitions_first_error (q st : ℚ) :
    ∀ (ts : List TCand) (i j : ℕ) (t : TCand) (e : ConfigError),
      (∀ (k : ℕ) (u : TCand), k < j → ts[k]? = some u → TEntryOk q st u) →
      ts[j]? = some t →
      checkTransition q (some st) (i + j) t = Except.error e →
      checkTransitions q (some st) i ts = Except.error e := by
  intro ts
  induction ts with
  | nil =>
    intro i j t e _ hj _
    simp at hj
  | cons t0 rest ih =>
    intro i j t e hbefore hj hc
    cases j with
    | zero =>
      simp only [List.getElem?_cons_zero, Option.some.injEq] at hj
      subst hj
      rw [Nat.add_zero] at hc
      unfold checkTransitions
      rw [hc]
    | succ j' =>
      have h0 : TEntryOk q st t0 := hbefore 0 t0 (Nat.succ_pos j') (by simp)
      have hc0 : checkTransition q (some st) i t0 = Except.ok () :=
        (checkTransition_ok_iff q st i t0).mpr h0
      unfold checkTransitions
      rw [hc0]
      dsimp only
      apply ih (i + 1) j' t e
      · intro k u hk hku
        exact hbefore (k + 1) u (Nat.succ_lt_succ hk) (by simpa using hku)
      · simpa using hj
      · have hadd : i + 1 + j' = i + (j' + 1) := by omega
        rw [hadd]
        exact hc

/-! ### Claim C3 (validator acceptance condition) -/

/-- Refutes C3 as stated: the validator accepts a candidate whose
`newColor` is the non-integer number `1/2` — the code checks
`typeof t.newColor !== 'number'` and the range only, never integrality, so
"newColor an integer in [0, colorCount)" is not the acceptance condition. -/
theorem validator_accepts_noninteger_newColor :
    validateAntConfig fracNewColorCand = Except.ok () ∧
    (∃ ts, fracNewColorCand.transitions = some ts ∧
      ∃ t ∈ ts, t.newColor = some ((1 : ℚ)/2)) ∧
    (∀ n : ℤ, ((1 : ℚ)/2) ≠ (n : ℚ)) := by
  refine ⟨?_, ⟨_, rfl, ⟨true, some (1/2), some 1, some 0⟩, by simp, rfl⟩, ?_⟩
  · norm_num [validateAntConfig, fracNewColorCand, checkTransitions, checkTransition]
    intro h
    exact absurd h (by decide)
  · intro n h
    rw [div_eq_iff (by norm_num : (2 : ℚ) ≠ 0)] at h
    have h' : (1 : ℤ) = n * 2 := by exact_mod_cast h
    omega

/-- C3 (amended: the per-entry checks require numbers, not integers).  For
any candidate passing the structural checks — an object with a nonempty
string name, a numeric `colors ≥ 1`, a numeric `states` and a transitions
array — the validator accepts iff the transition count equals
`states * (colors + 1)` and every entry passes the per-entry range checks
(`newColor` a number in `[0, colorCount)`, `turn` exactly `0` (left) or
`1` (right), `nextState` a number in `[0, stateCount)`); when the count
check fails the error is `transitionCountMismatch` carrying the expected
count for the message; and otherwise rejection carries the distinct
subkind of the first failing check in check order: with every entry before
index `j` passing and entry `j` the first to fail, the error is
`transitionNotAnObject j`, `newColorOutOfRange j`, `invalidTurn j` or
`nextStateOutOfRange j` according to the first of entry `j`'s checks that
fails, in source order. -/
theorem validator_accepts_iff_count_and_ranges
    (c : Cand) (nm : String) (st q : ℚ) (ts : List TCand)
    (hobj : c.isObj = true) (hname : c.name = some nm) (hnm : nm ≠ "")
    (hcol : c.colors = some q) (hq : 1 ≤ q)
    (hst : c.states = some st) (htr : c.transitions = some ts) :
    (validateAntConfig c = Except.ok () ↔
      ((ts.length : ℚ) = st * (q + 1) ∧ ∀ t ∈ ts, TEntryOk q st t)) ∧
    ((ts.length : ℚ) ≠ st * (q + 1) →
      validateAntConfig c =
        Except.error (ConfigError.transitionCountMismatch (some (st * (q + 1))))) ∧
    ((ts.length : ℚ) = st * (q + 1) →
      ∀ (j : ℕ) (t : TCand), ts[j]? = some t →
        (∀ (k : ℕ) (u : TCand), k < j → ts[k]? = some u → TEntryOk q st u) →
        (t.isObj = false →
          validateAntConfig c =
            Except.error (ConfigError.transitionNotAnObject j)) ∧
        (t.isObj = true → ¬ TNewColorOk q t →
          validateAntConfig c =
            Except.error (ConfigError.newColorOutOfRange j)) ∧
        (t.isObj = true → TNewColorOk q t → ¬ TTurnOk t →
          validateAntConfig c = Except.error (ConfigError.invalidTurn j)) ∧
        (t.isObj = true → TNewColorOk q t → TTurnOk t → ¬ TNextStateOk st t →
          validateAntConfig c =
            Except.error (ConfigError.nextStateOutOfRange j))) := by
  have hval : validateAntConfig c =
      if (ts.length : ℚ) ≠ st * (q + 1) then
        Except.error (ConfigError.transitionCountMismatch (some (st * (q + 1))))
      else checkTransitions q (some st) 0 ts := by
    simp [validateAntConfig, hobj, hname, hcol, hst, htr, hnm, not_lt.mpr hq]
  rw [hval]
  by_cases hcount : (ts.length : ℚ) = st * (q + 1)
  · rw [if_neg (by simpa using hcount)]
    refine ⟨?_, fun hne => absurd hcount hne, ?_⟩
    · rw [checkTransitions_ok_iff]
      simp [hcount]
    · intro _ j t hj hbefore
      refine ⟨fun hio => ?_, fun hio hncf => ?_, fun hio hncok htnf => ?_,
        fun hio hncok htnok hnsf => ?_⟩
      · refine checkTransitions_first_error q st ts 0 j t _ hbefore hj ?_
        rw [Nat.zero_add]
        exact checkTransition_err_notObject q (some st) j t hio
      · refine checkTransitions_first_error q st ts 0 j t _ hbefore hj ?_
        rw [Nat.zero_add]
        exact checkTransition_err_newColor q st j t hio hncf
      · refine checkTransitions_first_error q st ts 0 j t _ hbefore hj ?_
        rw [Nat.zero_add]
        exact checkTransition_err_turn q st j t hio hncok htnf
      · refine checkTransitions_first_error q st ts 0 j t _ hbefore hj ?_
        rw [Nat.zero_add]
        exact checkTransition_err_nextState q st j t hio hncok htnok hnsf
  · rw [if_pos hcount]
    exact ⟨by simp [hcount], fun _ => rfl, fun hcnt' => absurd hcnt' hcount⟩

/-- Witness for C3: the classic preset viewed as a candidate is accepted,
and a concrete candidate whose first failing check is the turn check of
entry 1 is rejected with `invalidTurn 1`. -/
theorem validator_accepts_iff_count_and_ranges_witness :
    validateAntConfig (Config.toCand classicConfig) = Except.ok () ∧
    validateAntConfig badTurnCand = Except.error (ConfigError.invalidTurn 1) := by
  constructor
  · have h := validator_accepts_iff_count_and_ranges (Config.toCand classicConfig)
      "classic" ((1 : ℕ) : ℚ) ((2 : ℕ) : ℚ)
      (classicConfig.transitions.map Transition.toCand)
      rfl rfl (by decide) rfl (by norm_num) rfl rfl
    refine h.1.mpr ⟨by norm_num [classicConfig], ?_⟩
    intro t ht
    norm_num [classicConfig, Transition.toCand, TEntryOk] at ht ⊢
    rcases ht with rfl | rfl | rfl <;> norm_num
  · have h := validator_accepts_iff_count_and_ranges badTurnCand "badturn" 1 1
      [⟨true, some 0, some 1, some 0⟩, ⟨true, some 0, some 5, some 0⟩]
      rfl rfl (by decide) rfl (by norm_num) rfl rfl
    refine (h.2.2 (by norm_num) 1 ⟨true, some 0, some 5, some 0⟩ (by simp) ?_).2.2.1
      rfl ⟨0, rfl, le_refl 0, by norm_num⟩ ?_
    · intro k u hk hku
      interval_cases k
      simp only [List.getElem?_cons_zero, Option.some.injEq] at hku
      subst hku
      exact ⟨rfl, ⟨0, rfl, le_refl 0, by norm_num⟩, Or.inr rfl,
        ⟨0, rfl, le_refl 0, by norm_num⟩⟩
    · intro hcon
      unfold TTurnOk at hcon
      rcases hcon with hturn | hturn <;> simp only [Option.some.injEq] at hturn <;>
        norm_num at hturn

/-! ### Claim C9 (colorCount integrality) -/

/-- C9: the validator accepts `colors = 3/2` (a number that is not an
integer ≥ 1), because the check `typeof obj.colors !== 'number' ||
obj.colors < 1` never tests integrality — contradicting the code's own
error message, which promises a positive integer. -/
theorem validator_accepts_fractional_colorCount :
    validateAntConfig fracColorsCand = Except.ok () ∧
    fracColorsCand.colors = some ((3 : ℚ)/2) ∧
    (∀ n : ℤ, ((3 : ℚ)/2) ≠ (n : ℚ)) := by
  refine ⟨?_, rfl, ?_⟩
  · norm_num [validateAntConfig, fracColorsCand, checkTransitions, checkTransition,
      List.replicate]
    intro h
    exact absurd h (by decide)
  · intro n h
    rw [div_eq_iff (by norm_num : (2 : ℚ) ≠ 0)] at h
    have h' : (3 : ℤ) = n * 2 := by exact_mod_cast h
    omega

/-! ### Claim C10 (initial state and facing of a new automaton) -/

/-- C10: every automaton `addAnt` creates starts at the given cell with
facing 0 (up) and internal state 0, bound to the given configuration or to
the engine default, regardless of which configuration that is. -/
theorem addAnt_initial_state_and_facing :
    (∀ (s : AntSim) (x y : ℤ) (cfg : Option Config),
      (s.addAnt x y cfg).ants = s.ants ++
        [{ x := x, y := y, direction := 0, state := 0, config := cfg.getD s.config }]) ∧
    (∀ (s : AntSim) (x y : ℤ) (cfg : Option Config),
      ∀ a ∈ (s.addAnt x y cfg).ants, a ∈ s.ants ∨ (a.direction = 0 ∧ a.state = 0)) := by
  refine ⟨fun s x y cfg => rfl, fun s x y cfg a ha => ?_⟩
  rcases (List.mem_append.mp ha) with h | h
  · exact Or.inl h
  · rcases List.mem_singleton.mp h with rfl
    exact Or.inr ⟨rfl, rfl⟩

/-- Witness for C10: a concrete automaton created by `addAnt`. -/
theorem addAnt_initial_state_and_facing_witness :
    ((AntSim.init classicConfig 20 20 10).addAnt 3 4 none).ants =
      [{ x := 3, y := 4, direction := 0, state := 0, config := classicConfig }] := by
  have h := addAnt_initial_state_and_facing.1 (AntSim.init classicConfig 20 20 10) 3 4 none
  simpa [AntSim.init, AntSim.setConfig] using h

/-! ### Claim C8 (rate controller) -/

/-- C8: on a batching tick while not paused, the controller adds
`rate * tickSeconds` to the accumulator, drains exactly the floor of the
result as `step()` calls, and keeps the fractional remainder, which lies
in `[0, 1)`; storing a new rate and resuming from pause both reset the
accumulator to exactly zero. -/
theorem rate_controller_tick_spec :
    (∀ r : RateCtl, r.paused = false → 0 ≤ r.stepAccumulator → 0 ≤ r.stepsPerSecond →
      ((tickBatch r).2 : ℤ) =
          ⌊r.stepAccumulator + r.stepsPerSecond * batchInterval / 1000⌋ ∧
        (tickBatch r).1.stepAccumulator =
          r.stepAccumulator + r.stepsPerSecond * batchInterval / 1000 -
            ⌊r.stepAccumulator + r.stepsPerSecond * batchInterval / 1000⌋ ∧
        0 ≤ (tickBatch r).1.stepAccumulator ∧
        (tickBatch r).1.stepAccumulator < 1 ∧
        (tickBatch r).1.stepsPerSecond = r.stepsPerSecond ∧
        (tickBatch r).1.paused = false) ∧
    (∀ (r : RateCtl) (q : ℚ), (setRate r q).stepAccumulator = 0) ∧
    (∀ r : RateCtl, r.paused = true →
      (togglePause r).stepAccumulator = 0 ∧ (togglePause r).paused = false) := by
  refine ⟨fun r hp h0 h1 => ?_, fun r q => rfl, fun r hp => by simp [togglePause, hp]⟩
  have hacc : 0 ≤ r.stepAccumulator + r.stepsPerSecond * batchInterval / 1000 := by
    have : (0 : ℚ) ≤ r.stepsPerSecond * batchInterval / 1000 := by
      have hb : (0 : ℚ) ≤ batchInterval := by norm_num [batchInterval]
      positivity
    linarith
  set acc := r.stepAccumulator + r.stepsPerSecond * batchInterval / 1000 with hacceq
  have htb : tickBatch r =
      ({ r with stepAccumulator := acc - ⌊acc⌋ }, (⌊acc⌋).toNat) := by
    simp [tickBatch, hp, hacceq]
  rw [htb]
  refine ⟨?_, rfl, ?_, ?_, rfl, hp⟩
  · simp [Int.toNat_of_nonneg (Int.floor_nonneg.mpr hacc)]
  · show (0 : ℚ) ≤ acc - (⌊acc⌋ : ℤ)
    exact sub_nonneg.mpr (Int.floor_le acc)
  · show acc - ((⌊acc⌋ : ℤ) : ℚ) < 1
    have h := Int.lt_floor_add_one acc
    linarith

/-- Witness for C8 at a concrete controller state: rate 30, accumulator
1/4; the tick adds 3/2, drains one step and keeps 3/4. -/
theorem rate_controller_tick_spec_witness :
    (((tickBatch ⟨30, 1/4, false⟩).2 : ℤ) =
        ⌊(1 : ℚ)/4 + 30 * batchInterval / 1000⌋ ∧
      (tickBatch ⟨30, 1/4, false⟩).1.stepAccumulator =
        (1 : ℚ)/4 + 30 * batchInterval / 1000 -
          ⌊(1 : ℚ)/4 + 30 * batchInterval / 1000⌋ ∧
      0 ≤ (tickBatch ⟨30, 1/4, false⟩).1.stepAccumulator ∧
      (tickBatch ⟨30, 1/4, false⟩).1.stepAccumulator < 1 ∧
      (tickBatch ⟨30, 1/4, false⟩).1.stepsPerSecond = 30 ∧
      (tickBatch ⟨30, 1/4, false⟩).1.paused = false) ∧
    (togglePause ⟨30, 1/4, true⟩).stepAccumulator = 0 := by
  constructor
  · exact rate_controller_tick_spec.1 ⟨30, 1/4, false⟩ rfl (by norm_num) (by norm_num)
  · exact (rate_controller_tick_spec.2.2 ⟨30, 1/4, true⟩ rfl).1

/-! ### Engine lemmas: the advance map and its wrap-around cycle -/

lemma emod_shift_sub (m x : ℤ) : (x % m - 1) % m = (x - 1) % m := by
  conv_rhs => rw [Int.sub_emod]
  rw [Int.sub_emod (x % m) 1 m, Int.emod_emod_of_dvd x (dvd_refl m)]

lemma emod_shift_add (m x : ℤ) : (x % m + 1) % m = (x + 1) % m := by
  conv_rhs => rw [Int.add_emod]
  rw [Int.add_emod (x % m) 1 m, Int.emod_emod_of_dvd x (dvd_refl m)]

lemma wrapSub_iter (m : ℕ) (hm : 0 < m) (k : ℕ) :
    ∀ z : ℤ, 0 ≤ z → z < m →
      (fun w => Int.tmod (w - 1 + m) m)^[k] z = (z - k) % m := by
  induction k with
  | zero =>
    intro z h0 h1
    simpa using (Int.emod_eq_of_lt h0 h1).symm
  | succ k ih =>
    intro z h0 h1
    rw [Function.iterate_succ_apply', ih z h0 h1]
    have hmz : (0 : ℤ) < (m : ℤ) := by exact_mod_cast hm
    have hnn : 0 ≤ (z - k) % (m : ℤ) := Int.emod_nonneg _ (ne_of_gt hmz)
    rw [Int.tmod_eq_emod (by linarith) (le_of_lt hmz)]
    have hstep : ((z - k) % (m : ℤ) - 1 + m) = ((z - k) % (m : ℤ) - 1) + m * 1 := by ring
    rw [hstep, Int.add_mul_emod_self_left, emod_shift_sub]
    push_cast
    ring_nf

lemma wrapAdd_iter (m : ℕ) (hm : 0 < m) (k : ℕ) :
    ∀ z : ℤ, 0 ≤ z → z < m →
      (fun w => Int.tmod (w + 1) m)^[k] z = (z + k) % m := by
  induction k with
  | zero =>
    intro z h0 h1
    simpa using (Int.emod_eq_of_lt h0 h1).symm
  | succ k ih =>
    intro z h0 h1
    rw [Function.iterate_succ_apply', ih z h0 h1]
    have hmz : (0 : ℤ) < (m : ℤ) := by exact_mod_cast hm
    have hnn : 0 ≤ (z + k) % (m : ℤ) := Int.emod_nonneg _ (ne_of_gt hmz)
    rw [Int.tmod_eq_emod (by linarith) (le_of_lt hmz), emod_shift_add]
    push_cast
    ring_nf

lemma emod_full_cycle_sub (m : ℕ) (z : ℤ) (h0 : 0 ≤ z) (h1 : z < m) :
    (z - m) % (m : ℤ) = z := by
  have hstep : z - m = z + (m : ℤ) * (-1) := by ring
  rw [hstep, Int.add_mul_emod_self_left, Int.emod_eq_of_lt h0 h1]

lemma emod_full_cycle_add (m : ℕ) (z : ℤ) (h0 : 0 ≤ z) (h1 : z < m) :
    (z + m) % (m : ℤ) = z := by
  have hstep : z + m = z + (m : ℤ) * 1 := by ring
  rw [hstep, Int.add_mul_emod_self_left, Int.emod_eq_of_lt h0 h1]

lemma advanceAnt_iter_dir0 (rows cols k : ℕ) (a : Ant) (hd : a.direction = 0) :
    (advanceAnt rows cols)^[k] a =
      { a with y := (fun w => Int.tmod (w - 1 + rows) rows)^[k] a.y } := by
  induction k with
  | zero => rfl
  | succ k ih =>
    rw [Function.iterate_succ_apply', Function.iterate_succ_apply', ih]
    simp [advanceAnt, hd]

lemma advanceAnt_iter_dir1 (rows cols k : ℕ) (a : Ant) (hd : a.direction = 1) :
    (advanceAnt rows cols)^[k] a =
      { a with x := (fun w => Int.tmod (w + 1) cols)^[k] a.x } := by
  induction k with
  | zero => rfl
  | succ k ih =>
    rw [Function.iterate_succ_apply', Function.iterate_succ_apply', ih]
    simp [advanceAnt, hd]

lemma advanceAnt_iter_dir2 (rows cols k : ℕ) (a : Ant) (hd : a.direction = 2) :
    (advanceAnt rows cols)^[k] a =
      { a with y := (fun w => Int.tmod (w + 1) rows)^[k] a.y } := by
  induction k with
  | zero => rfl
  | succ k ih =>
    rw [Function.iterate_succ_apply', Function.iterate_succ_apply', ih]
    simp [advanceAnt, hd]

lemma advanceAnt_iter_dir3 (rows cols k : ℕ) (a : Ant) (hd : a.direction = 3) :
    (advanceAnt rows cols)^[k] a =
      { a with x := (fun w => Int.tmod (w - 1 + cols) cols)^[k] a.x } := by
  induction k with
  | zero => rfl
  | succ k ih =>
    rw [Function.iterate_succ_apply', Function.iterate_succ_apply', ih]
    simp [advanceAnt, hd]

lemma move_primary_eq (rows cols : ℕ) (g : Grid) (a : Ant) (row : List ℕ)
    (c : ℕ) (t : Transition)
    (hrow : gridRow? g a.y = some row) (hc : cellRead? row a.x = some c)
    (ht : a.config.transitions[a.state * a.config.colors + c]? = some t) :
    a.move g rows cols = some
      (gridSet g a.y a.x t.newColor,
       advanceAnt rows cols
         { a with
           direction := (a.direction + (if t.turn = 0 then 3 else 1)) % 4,
           state := t.nextState }) := by
  unfold Ant.move
  rw [hrow]
  simp only [hc, ht]

/-! ### Claim C1 (movement rule and wrap-around) -/

/-- C1: on a resolved transition, one `Ant.move` repaints the current cell
to `newColor`, rotates facing by `+3 mod 4` on a left turn (`turn = 0`) and
`+1 mod 4` otherwise, sets the state to `nextState`, and advances one cell
in the new facing direction with toroidal wrap; consequently the advance
map applied `rows` times (facing up or down) or `cols` times (facing right
or left) from an in-range coordinate is the identity on the automaton. -/
theorem ant_move_rule_and_wrap :
    (∀ (rows cols : ℕ) (g : Grid) (a : Ant) (row : List ℕ) (c : ℕ)
        (t : Transition),
      gridRow? g a.y = some row → cellRead? row a.x = some c →
      a.config.transitions[a.state * a.config.colors + c]? = some t →
      a.move g rows cols = some
        (gridSet g a.y a.x t.newColor,
         advanceAnt rows cols
           { a with
             direction := (a.direction + (if t.turn = 0 then 3 else 1)) % 4,
             state := t.nextState })) ∧
    (∀ (rows cols : ℕ) (a : Ant), 0 ≤ a.y → a.y < rows →
      (a.direction = 0 → (advanceAnt rows cols)^[rows] a = a) ∧
      (a.direction = 2 → (advanceAnt rows cols)^[rows] a = a)) ∧
    (∀ (rows cols : ℕ) (a : Ant), 0 ≤ a.x → a.x < cols →
      (a.direction = 1 → (advanceAnt rows cols)^[cols] a = a) ∧
      (a.direction = 3 → (advanceAnt rows cols)^[cols] a = a)) := by
  refine ⟨move_primary_eq, fun rows cols a h0 h1 => ⟨fun hd => ?_, fun hd => ?_⟩,
    fun rows cols a h0 h1 => ⟨fun hd => ?_, fun hd => ?_⟩⟩
  · have hm : 0 < rows := by
      by_contra hr
      push_neg at hr
      interval_cases rows
      exact absurd h1 (by simpa using h0)
    rw [advanceAnt_iter_dir0 rows cols rows a hd, wrapSub_iter rows hm rows a.y h0 h1,
      emod_full_cycle_sub rows a.y h0 h1]
  · have hm : 0 < rows := by
      by_contra hr
      push_neg at hr
      interval_cases rows
      exact absurd h1 (by simpa using h0)
    rw [advanceAnt_iter_dir2 rows cols rows a hd, wrapAdd_iter rows hm rows a.y h0 h1,
      emod_full_cycle_add rows a.y h0 h1]
  · have hm : 0 < cols := by
      by_contra hr
      push_neg at hr
      interval_cases cols
      exact absurd h1 (by simpa using h0)
    rw [advanceAnt_iter_dir1 rows cols cols a hd, wrapAdd_iter cols hm cols a.x h0 h1,
      emod_full_cycle_add cols a.x h0 h1]
  · have hm : 0 < cols := by
      by_contra hr
      push_neg at hr
      interval_cases cols
      exact absurd h1 (by simpa using h0)
    rw [advanceAnt_iter_dir3 rows cols cols a hd, wrapSub_iter cols hm cols a.x h0 h1,
      emod_full_cycle_sub cols a.x h0 h1]

/-- Witness for C1: one concrete move of a classic ant (repaint to 1, right
turn from facing 0 to 1, advance to x = 1), and the two-step wrap cycle
facing right on a 1-row 2-column grid. -/
theorem ant_move_rule_and_wrap_witness :
    (⟨0, 0, 0, 0, classicConfig⟩ : Ant).move [[0, 0], [0, 0]] 2 2 =
        some ([[1, 0], [0, 0]], ⟨1, 0, 1, 0, classicConfig⟩) ∧
    (advanceAnt 1 2)^[2] (⟨0, 0, 1, 0, classicConfig⟩ : Ant) =
        ⟨0, 0, 1, 0, classicConfig⟩ := by
  constructor
  · have h := ant_move_rule_and_wrap.1 2 2 [[0, 0], [0, 0]]
      ⟨0, 0, 0, 0, classicConfig⟩ [0, 0] 0 ⟨1, 1, 0⟩ rfl rfl rfl
    exact h.trans (by rfl)
  · exact (ant_move_rule_and_wrap.2.2 1 2 ⟨0, 0, 1, 0, classicConfig⟩
      (by norm_num) (by norm_num)).1 rfl

/-! ### Bridge: validator acceptance of an integer configuration -/

lemma TEntryOk_toCand (colors states : ℕ) (t : Transition) :
    TEntryOk (colors : ℚ) (states : ℚ) t.toCand ↔
      (t.newColor < colors ∧ (t.turn = 0 ∨ t.turn = 1) ∧ t.nextState < states) := by
  simp [TEntryOk, Transition.toCand]

lemma validate_toCand_ok_iff (c : Config) :
    validateAntConfig (Config.toCand c) = Except.ok () ↔ c.Valid := by
  by_cases hnm : c.name = ""
  · simp [validateAntConfig, Config.toCand, hnm, Config.Valid]
  · by_cases hcol : 1 ≤ c.colors
    · have hcolq : ¬ ((c.colors : ℚ) < 1) := by
        rw [not_lt]
        exact_mod_cast hcol
      have hval : validateAntConfig (Config.toCand c) =
          if ((c.transitions.map Transition.toCand).length : ℚ) ≠
              (c.states : ℚ) * ((c.colors : ℚ) + 1) then
            Except.error (ConfigError.transitionCountMismatch
              (some ((c.states : ℚ) * ((c.colors : ℚ) + 1))))
          else checkTransitions (c.colors : ℚ) (some (c.states : ℚ)) 0
            (c.transitions.map Transition.toCand) := by
        simp [validateAntConfig, Config.toCand, hnm, hcolq]
      have hcnt : (((c.transitions.map Transition.toCand).length : ℚ) =
          (c.states : ℚ) * ((c.colors : ℚ) + 1)) ↔
          c.transitions.length = c.states * (c.colors + 1) := by
        rw [List.length_map]
        constructor
        · intro h
          exact_mod_cast h
        · intro h
          exact_mod_cast h
      rw [hval]
      by_cases hc : c.transitions.length = c.states * (c.colors + 1)
      · rw [if_neg (not_not_intro (hcnt.mpr hc))]
        rw [checkTransitions_ok_iff]
        unfold Config.Valid
        simp only [List.mem_map, forall_exists_index, and_imp]
        constructor
        · intro h
          refine ⟨hnm, hcol, hc, fun t ht => ?_⟩
          exact (TEntryOk_toCand c.colors c.states t).mp (h _ t ht rfl)
        · rintro ⟨-, -, -, h⟩ x t ht rfl
          exact (TEntryOk_toCand c.colors c.states t).mpr (h t ht)
      · rw [if_pos (fun h => hc (hcnt.mp h))]
        simp [Config.Valid, hc]
    · have hcolq : (c.colors : ℚ) < 1 := by exact_mod_cast not_le.mp hcol
      simp [validateAntConfig, Config.toCand, hnm, hcolq, Config.Valid, hcol]

/-! ### Claim C6 (primary lookup always resolves; fallback unreachable) -/

/-- C6: for an automaton bound to a configuration the validator accepts,
with internal state below `stateCount` and current cell color below
`colorCount`, the primary lookup at `state * colorCount + color` yields a
defined transition, and `Ant.move` takes exactly the primary branch — the
fallback lookup at `state * colorCount + colorCount` and the do-nothing
branch are not consulted. -/
theorem primary_lookup_always_resolves
    (rows cols : ℕ) (g : Grid) (a : Ant) (row : List ℕ) (c : ℕ)
    (hvalid : validateAntConfig (Config.toCand a.config) = Except.ok ())
    (hstate : a.state < a.config.states) (hcolor : c < a.config.colors)
    (hrow : gridRow? g a.y = some row) (hc : cellRead? row a.x = some c) :
    ∃ t, a.config.transitions[a.state * a.config.colors + c]? = some t ∧
      a.move g rows cols = some
        (gridSet g a.y a.x t.newColor,
         advanceAnt rows cols
           { a with
             direction := (a.direction + (if t.turn = 0 then 3 else 1)) % 4,
             state := t.nextState }) := by
  have hlen : a.config.transitions.length = a.config.states * (a.config.colors + 1) :=
    ((validate_toCand_ok_iff a.config).mp hvalid).2.2.1
  have hidx : a.state * a.config.colors + c < a.config.transitions.length := by
    rw [hlen]
    calc a.state * a.config.colors + c
        < a.state * a.config.colors + a.config.colors := by omega
      _ = (a.state + 1) * a.config.colors := by ring
      _ ≤ a.config.states * a.config.colors := Nat.mul_le_mul_right _ hstate
      _ ≤ a.config.states * (a.config.colors + 1) := Nat.mul_le_mul_left _ (by omega)
  have ht : a.config.transitions[a.state * a.config.colors + c]? =
      some (a.config.transitions.get ⟨a.state * a.config.colors + c, hidx⟩) :=
    List.getElem?_eq_getElem hidx
  exact ⟨_, ht, move_primary_eq rows cols g a row c _ hrow hc ht⟩

/-- Witness for C6: the classic configuration validates, and a classic ant
in state 0 on color 0 resolves the primary lookup to the first table entry. -/
theorem primary_lookup_always_resolves_witness :
    ∃ t, classicConfig.transitions[0 * classicConfig.colors + 0]? = some t ∧
      (⟨0, 0, 0, 0, classicConfig⟩ : Ant).move [[0, 0], [0, 0]] 2 2 = some
        (gridSet [[0, 0], [0, 0]] 0 0 t.newColor,
         advanceAnt 2 2
           { x := 0, y := 0,
             direction := (0 + (if t.turn = 0 then 3 else 1)) % 4,
             state := t.nextState, config := classicConfig }) := by
  have h := primary_lookup_always_resolves 2 2 [[0, 0], [0, 0]]
    ⟨0, 0, 0, 0, classicConfig⟩ [0, 0] 0
    ((validate_toCand_ok_iff classicConfig).mpr
      (by unfold Config.Valid; decide))
    (by decide) (by decide) rfl rfl
  exact h


/-! ### Engine lemmas: totality of the step under in-range row indices -/

lemma move_isSome_of_row (a : Ant) (g : Grid) (rows cols : ℕ) (row : List ℕ)
    (hrow : gridRow? g a.y = some row) :
    ∃ p, a.move g rows cols = some p := by
  unfold Ant.move
  rw [hrow]
  dsimp only
  rcases hc : cellRead? row a.x with _ | c <;> dsimp only
  · rcases hf : a.config.transitions[a.state * a.config.colors + a.config.colors]?
      with _ | t
    · exact ⟨(g, a), rfl⟩
    · exact ⟨_, rfl⟩
  · rcases hp : a.config.transitions[a.state * a.config.colors + c]? with _ | t
    · dsimp only
      rcases hf : a.config.transitions[a.state * a.config.colors + a.config.colors]?
        with _ | t'
      · exact ⟨(g, a), rfl⟩
      · exact ⟨_, rfl⟩
    · exact ⟨_, rfl⟩

lemma gridWFd_gridSet (rows cols : ℕ) (g : Grid) (y x : ℤ) (v : ℕ)
    (h : gridWFd rows cols g) : gridWFd rows cols (gridSet g y x v) := by
  obtain ⟨hlen, hrows⟩ := h
  unfold gridSet
  split_ifs with hy
  · exact ⟨hlen, hrows⟩
  · by_cases hin : y.toNat < g.length
    · refine ⟨by simpa using hlen, ?_⟩
      intro row hrow
      rcases List.mem_or_eq_of_mem_set hrow with hmem | rfl
      · exact hrows row hmem
      · rw [List.getElem?_eq_getElem hin]
        unfold rowSet
        split_ifs
        · exact hrows _ (List.getElem_mem hin)
        · rw [List.length_set]
          exact hrows _ (List.getElem_mem hin)
    · rw [List.set_eq_of_length_le (le_of_not_lt hin)]
      exact ⟨hlen, hrows⟩

lemma move_grid_shape (a : Ant) (g : Grid) (rows cols : ℕ) (g' : Grid) (a' : Ant)
    (hm : a.move g rows cols = some (g', a')) :
    g' = g ∨ ∃ y x v, g' = gridSet g y x v := by
  revert hm
  unfold Ant.move
  rcases hrow : gridRow? g a.y with _ | row
  · intro hm
    simp at hm
  · dsimp only
    rcases hc : cellRead? row a.x with _ | c <;> dsimp only
    · rcases hf : a.config.transitions[a.state * a.config.colors + a.config.colors]?
        with _ | t
      · intro hm
        simp at hm
        exact Or.inl hm.1.symm
      · intro hm
        simp at hm
        exact Or.inr ⟨a.y, a.x, t.newColor, hm.1.symm⟩
    · rcases hp : a.config.transitions[a.state * a.config.colors + c]? with _ | t
      · dsimp only
        rcases hf : a.config.transitions[a.state * a.config.colors + a.config.colors]?
          with _ | t'
        · intro hm
          simp at hm
          exact Or.inl hm.1.symm
        · intro hm
          simp at hm
          exact Or.inr ⟨a.y, a.x, t'.newColor, hm.1.symm⟩
      · intro hm
        simp at hm
        exact Or.inr ⟨a.y, a.x, t.newColor, hm.1.symm⟩

lemma gridWFd_move (rows cols : ℕ) (g g' : Grid) (a a' : Ant)
    (h : gridWFd rows cols g) (hm : a.move g rows cols = some (g', a')) :
    gridWFd rows cols g' := by
  rcases move_grid_shape a g rows cols g' a' hm with rfl | ⟨y, x, v, rfl⟩
  · exact h
  · exact gridWFd_gridSet rows cols g y x v h

lemma stepAnts_total (rows cols : ℕ) :
    ∀ (ants : List Ant) (g : Grid), gridWFd rows cols g →
      (∀ a ∈ ants, 0 ≤ a.y ∧ a.y < rows) →
      ∃ p, stepAnts rows cols g ants = some p := by
  intro ants
  induction ants with
  | nil => exact fun g _ _ => ⟨(g, []), rfl⟩
  | cons a rest ih =>
    intro g hwf hy
    obtain ⟨h0, h1⟩ := hy a (by simp)
    have hlt : a.y.toNat < g.length := by
      rw [hwf.1]
      omega
    have hrow : gridRow? g a.y = some (g.get ⟨a.y.toNat, hlt⟩) := by
      unfold gridRow?
      rw [if_neg (not_lt.mpr h0)]
      exact List.getElem?_eq_getElem hlt
    obtain ⟨⟨g', a'⟩, hm⟩ := move_isSome_of_row a g rows cols _ hrow
    obtain ⟨p, hp⟩ := ih g' (gridWFd_move rows cols g g' a a' hwf hm)
      (fun b hb => hy b (by simp [hb]))
    refine ⟨(p.1, a' :: p.2), ?_⟩
    unfold stepAnts
    rw [hm]
    dsimp only
    rw [hp]

/-! ### Claim C5 (totality of step, addAnt, resize) -/

/-- Refutes C5 as stated: a state reachable through the public interface —
`addAnt` at row 5 of a 2-row grid, which `addAnt` tolerates with no bounds
check — makes the very next `step()` throw (`grid[5]` is `undefined`, so
`grid[5][0]` raises a `TypeError`, modelled as `none`). -/
theorem step_raises_on_out_of_range_row :
    AntSim.step ((AntSim.init classicConfig 20 20 10).addAnt 0 5 none) = none ∧
    ((AntSim.init classicConfig 20 20 10).addAnt 0 5 none).rows = 2 :=
  ⟨rfl, rfl⟩

/-- C5 (amended): `addAnt` and `resize` are total (they are plain list and
array constructions, embedded as total functions), and `step()` never
raises provided every automaton's row index is in `[0, rows)` — a
horizontally out-of-range automaton (any `x`) is tolerated, falling
through to the fallback lookup or the stall branch; only a vertically
out-of-range automaton makes `step()` throw, until a resize prunes it. -/
theorem step_total_for_in_range_rows (s : AntSim) (hwf : gridWF s)
    (hy : ∀ a ∈ s.ants, 0 ≤ a.y ∧ a.y < s.rows) :
    ∃ s', AntSim.step s = some s' := by
  obtain ⟨p, hp⟩ := stepAnts_total s.rows s.cols s.ants s.grid hwf hy
  refine ⟨{ s with grid := p.1, ants := p.2 }, ?_⟩
  unfold AntSim.step
  rw [hp]

/-- Witness for C5: an automaton at `x = 5` (outside the 2 columns) but
in-range row steps without an error. -/
theorem step_total_for_in_range_rows_witness :
    ∃ s', AntSim.step ((AntSim.init classicConfig 20 20 10).addAnt 5 1 none) = some s' :=
  step_total_for_in_range_rows ((AntSim.init classicConfig 20 20 10).addAnt 5 1 none)
    (by unfold gridWF gridWFd; decide) (by decide)

/-! ### Claim C2 (sequential multi-automaton semantics) -/

/-- C2: `step()` processes every automaton exactly once in list (addition)
order, threading the grid: the empty law, the general cons law (each later
automaton moves against the grid left by the earlier ones), the two-ant
instance, and a concrete discrimination: two classic ants on the same cell
of a 2×2 background grid — the second observes color 1, the first ant's
repaint, and turns left to facing 3 (under pre-step reads it would observe
0 and turn right to facing 1). -/
theorem step_sequential_in_order :
    (∀ (rows cols : ℕ) (g : Grid), stepAnts rows cols g [] = some (g, [])) ∧
    (∀ (rows cols : ℕ) (g g1 : Grid) (a a' : Ant) (rest : List Ant)
        (p : Grid × List Ant),
      a.move g rows cols = some (g1, a') → stepAnts rows cols g1 rest = some p →
      stepAnts rows cols g (a :: rest) = some (p.1, a' :: p.2)) ∧
    (∀ (rows cols : ℕ) (g g1 g2 : Grid) (a b a' b' : Ant),
      a.move g rows cols = some (g1, a') → b.move g1 rows cols = some (g2, b') →
      stepAnts rows cols g [a, b] = some (g2, [a', b'])) ∧
    (stepAnts 2 2 [[0, 0], [0, 0]]
        [⟨0, 0, 0, 0, classicConfig⟩, ⟨0, 0, 0, 0, classicConfig⟩] =
      some ([[0, 0], [0, 0]],
        [⟨1, 0, 1, 0, classicConfig⟩, ⟨1, 0, 3, 0, classicConfig⟩])) := by
  have hcons : ∀ (rows cols : ℕ) (g g1 : Grid) (a a' : Ant) (rest : List Ant)
      (p : Grid × List Ant),
      a.move g rows cols = some (g1, a') → stepAnts rows cols g1 rest = some p →
      stepAnts rows cols g (a :: rest) = some (p.1, a' :: p.2) := by
    intro rows cols g g1 a a' rest p hm hp
    unfold stepAnts
    rw [hm]
    dsimp only
    rw [hp]
  refine ⟨fun rows cols g => rfl, hcons, ?_, rfl⟩
  intro rows cols g g1 g2 a b a' b' hma hmb
  have hb : stepAnts rows cols g1 [b] = some (g2, [b']) := by
    unfold stepAnts
    rw [hmb]
    rfl
  exact hcons rows cols g g1 a a' [b] (g2, [b']) hma hb

/-- Witness for C2: the cons law applied to the two concrete classic ants. -/
theorem step_sequential_in_order_witness :
    stepAnts 2 2 [[0, 0], [0, 0]]
        [⟨0, 0, 0, 0, classicConfig⟩, ⟨0, 0, 0, 0, classicConfig⟩] =
      some ([[0, 0], [0, 0]],
        [⟨1, 0, 1, 0, classicConfig⟩, ⟨1, 0, 3, 0, classicConfig⟩]) :=
  step_sequential_in_order.2.2.1 2 2 [[0, 0], [0, 0]] [[1, 0], [0, 0]]
    [[0, 0], [0, 0]] ⟨0, 0, 0, 0, classicConfig⟩ ⟨0, 0, 0, 0, classicConfig⟩
    ⟨1, 0, 1, 0, classicConfig⟩ ⟨1, 0, 3, 0, classicConfig⟩ rfl rfl

/-! ### Claim C4 (resize invariant) -/

lemma cellAt_resizeGrid (old : Grid) (oR oC nR nC y x : ℕ)
    (hy : y < nR) (hx : x < nC) :
    cellAt (resizeGrid old oR oC nR nC) y x =
      if y < min oR nR ∧ x < min oC nC then cellAt old y x else 0 := by
  simp [cellAt, resizeGrid, List.getElem?_map, List.getElem?_range hy,
    List.getElem?_range hx]

/-- Refutes C4 as stated: the resize filter `ant.x < cols && ant.y < rows`
checks upper bounds only, so an automaton placed at `x = -1` through
`addAnt` (which performs no bounds check) survives a resize while
violating `0 ≤ x`. -/
theorem resize_keeps_negative_coordinate :
    (((AntSim.init classicConfig 20 20 10).addAnt (-1) 0 none).resize 20 20).ants =
      [{ x := -1, y := 0, direction := 0, state := 0, config := classicConfig }] ∧
    ¬ ((0 : ℤ) ≤ -1) := ⟨rfl, by decide⟩

/-- C4 (amended: the lower bounds hold only when they held before the
call).  After `resize(width, height)`: every surviving automaton satisfies
`x < cols` and `y < rows` (upper bounds; the filter never checks lower
bounds), and if every automaton had nonnegative coordinates before the
call then every survivor satisfies the full invariant
`0 ≤ x < cols ∧ 0 ≤ y < rows`; cell colors on the overlapping top-left
`min(oldRows, newRows) × min(oldCols, newCols)` region are preserved
exactly, and every new cell outside that region holds background color 0. -/
theorem resize_bounds_overlap_background (s : AntSim) (w h : ℕ) :
    (∀ a ∈ (s.resize w h).ants,
      a.x < ((s.resize w h).cols : ℤ) ∧ a.y < ((s.resize w h).rows : ℤ)) ∧
    ((∀ a ∈ s.ants, 0 ≤ a.x ∧ 0 ≤ a.y) →
      ∀ a ∈ (s.resize w h).ants,
        0 ≤ a.x ∧ a.x < ((s.resize w h).cols : ℤ) ∧
        0 ≤ a.y ∧ a.y < ((s.resize w h).rows : ℤ)) ∧
    (∀ y x : ℕ, y < min s.rows (s.resize w h).rows →
      x < min s.cols (s.resize w h).cols →
      cellAt (s.resize w h).grid y x = cellAt s.grid y x) ∧
    (∀ y x : ℕ, y < (s.resize w h).rows → x < (s.resize w h).cols →
      ¬(y < min s.rows (s.resize w h).rows ∧ x < min s.cols (s.resize w h).cols) →
      cellAt (s.resize w h).grid y x = 0) := by
  have hmem : ∀ a ∈ (s.resize w h).ants, a ∈ s.ants ∧
      a.x < ((s.resize w h).cols : ℤ) ∧ a.y < ((s.resize w h).rows : ℤ) := by
    intro a ha
    simp only [AntSim.resize, List.mem_filter, Bool.and_eq_true,
      decide_eq_true_eq] at ha
    exact ⟨ha.1, ha.2.1, ha.2.2⟩
  refine ⟨fun a ha => (hmem a ha).2, fun hpos a ha => ?_, fun y x hy hx => ?_,
    fun y x hy hx hcond => ?_⟩
  · obtain ⟨hin, hx', hy'⟩ := hmem a ha
    obtain ⟨hx0, hy0⟩ := hpos a hin
    exact ⟨hx0, hx', hy0, hy'⟩
  · have hgrid : (s.resize w h).grid =
        resizeGrid s.grid s.rows s.cols ((s.resize w h).rows) ((s.resize w h).cols) :=
      rfl
    rw [hgrid, cellAt_resizeGrid s.grid s.rows s.cols _ _ y x
      (lt_of_lt_of_le hy (min_le_right _ _)) (lt_of_lt_of_le hx (min_le_right _ _))]
    rw [if_pos ⟨hy, hx⟩]
  · have hgrid : (s.resize w h).grid =
        resizeGrid s.grid s.rows s.cols ((s.resize w h).rows) ((s.resize w h).cols) :=
      rfl
    rw [hgrid, cellAt_resizeGrid s.grid s.rows s.cols _ _ y x hy hx]
    rw [if_neg hcond]

/-- Witness for C4 at a concrete resize from a 2×2 grid to a 1×1 grid. -/
theorem resize_bounds_overlap_background_witness :
    cellAt (((AntSim.init classicConfig 20 20 10).resize 10 10).grid) 0 0 =
      cellAt ((AntSim.init classicConfig 20 20 10)).grid 0 0 :=
  (resize_bounds_overlap_background (AntSim.init classicConfig 20 20 10) 10 10).2.2.1
    0 0 (by decide) (by decide)

/-! ### Claim C7 (serialize round trip and re-validation) -/

lemma tentry_decode_encode (q st : ℚ) (t : TCand) (h : TEntryOk q st t) :
    decodeTCand (encodeTCand t) = t := by
  obtain ⟨hb, ⟨nc, hnc, -, -⟩, hturn, ⟨ns, hns, -, -⟩⟩ := h
  have hu : ∃ u, t.turn = some u := by
    rcases hturn with h | h
    · exact ⟨_, h⟩
    · exact ⟨_, h⟩
  obtain ⟨u, hu⟩ := hu
  rcases t with ⟨b, nc', tn', ns'⟩
  dsimp only at hb hnc hu hns
  subst hb
  subst hnc
  subst hu
  subst hns
  rfl

lemma decode_encode_of_valid (c : Cand) (h : validateAntConfig c = Except.ok ()) :
    decodeCand (encodeCand c) = c := by
  rcases c with ⟨b, n, sq, cq, tr⟩
  cases b with
  | false => exact absurd h (by simp [validateAntConfig])
  | true =>
    rcases n with _ | nm
    · exact absurd h (by simp [validateAntConfig])
    · by_cases hnm : nm = ""
      · exact absurd h (by simp [validateAntConfig, hnm])
      · rcases cq with _ | q
        · exact absurd h (by simp [validateAntConfig, hnm])
        · by_cases hq : q < 1
          · exact absurd h (by simp [validateAntConfig, hnm, hq])
          · rcases tr with _ | ts
            · exact absurd h (by simp [validateAntConfig, hnm, hq])
            · rcases sq with _ | st
              · exact absurd h (by simp [validateAntConfig, hnm, hq])
              · by_cases hcnt : (ts.length : ℚ) = st * (q + 1)
                · have hck : checkTransitions q (some st) 0 ts = Except.ok () := by
                    simpa [validateAntConfig, hnm, hq, hcnt] using h
                  have hentries := (checkTransitions_ok_iff q st 0 ts).mp hck
                  simp only [encodeCand, decodeCand]
                  simp [List.lookup]
                  have hmap : ∀ t ∈ ts, (decodeTCand ∘ encodeTCand) t = t :=
                    fun t ht => tentry_decode_encode q st t (hentries t ht)
                  rw [List.map_congr_left hmap, List.map_id']
                · exact absurd h (by simp [validateAntConfig, hnm, hq, hcnt])

/-- C7: for a configuration that validates, serializing emits its encoding
and parsing that encoding back yields a validation-equal configuration
(equal as candidates, i.e. on every validation-relevant field); and
serialization re-validates first, so serializing an object that fails
validation raises the same `ConfigError` instead of producing output. -/
theorem serialize_parse_roundtrip (c : Cand) :
    (validateAntConfig c = Except.ok () →
      serializeAntConfig c = Except.ok (encodeCand c) ∧
      parseAntConfig (encodeCand c) = Except.ok c) ∧
    (∀ e, validateAntConfig c = Except.error e →
      serializeAntConfig c = Except.error e) := by
  constructor
  · intro h
    have hdec : decodeCand (encodeCand c) = c := decode_encode_of_valid c h
    constructor
    · unfold serializeAntConfig
      rw [h]
    · unfold parseAntConfig
      rw [hdec, h]
  · intro e he
    unfold serializeAntConfig
    rw [he]

/-- Witness for C7: the classic preset round-trips through the
serialize-then-parse pipeline. -/
theorem serialize_parse_roundtrip_witness :
    parseAntConfig (encodeCand (Config.toCand classicConfig)) =
      Except.ok (Config.toCand classicConfig) :=
  ((serialize_parse_roundtrip (Config.toCand classicConfig)).1
    ((validate_toCand_ok_iff classicConfig).mpr
      (by unfold Config.Valid; decide))).2
